import Mathlib

/-!
The kubevirt-rt-checkup configuration loader, cancellable client and run orchestrator

A shallow embedding of `pkg/internal/config/config.go`, `pkg/internal/client/client.go`
and `pkg/mainflow.go`, together with the parts of the Go standard library
(`strconv.Atoi`, `time.ParseDuration`) that `config.New` calls.

Conventions.
* A Go `string` is a Lean `String`; the byte-wise scanners of the standard library
  are run over its characters. Every byte the scanners test for is ASCII, and a
  byte of a multi-byte UTF-8 sequence is never ASCII, so scanning characters and
  scanning bytes split a string in the same places.
* `int`, `int64` and `time.Duration` are mathematical integers (`Int`) with an
  explicit two's-complement wrap `wrap64` wherever Go arithmetic may overflow;
  `uint64` is `Nat` with an explicit `% 2 ^ 64`.
* A Go result `(v, err)` is a pair whose second component is `none` for `nil`.
-/

namespace Go

/-- Two's-complement wrap of a mathematical integer into the `int64` range. -/
def wrap64 (x : Int) : Int := (x + 2 ^ 63) % 2 ^ 64 - 2 ^ 63

/-- The largest `int64`. -/
def maxInt64 : Int := 2 ^ 63 - 1

/-- The smallest `int64`. -/
def minInt64 : Int := -(2 ^ 63)

/-- The test `'0' <= c && c <= '9'`. -/
def isDigit (c : Char) : Bool := decide (48 ≤ c.toNat) && decide (c.toNat ≤ 57)

/-- The value `c - '0'` of a digit. -/
def digitVal (c : Char) : Nat := c.toNat - 48

/-- The value of `len(s)`: the number of bytes of the UTF-8 encoding. -/
def byteLen : List Char → Nat
  | [] => 0
  | c :: cs => c.utf8Size + byteLen cs

/-- A Go `map[string]string`, as the list of its entries. -/
abbrev StringMap := List (String × String)

/-- The map index expression `m[k]`: the zero value `""` when the key is absent. -/
def StringMap.get (m : StringMap) (k : String) : String := (m.lookup k).getD ""

end Go

namespace strconv
open Go

/-- The two causes a `*strconv.NumError` can carry. -/
inductive NumError where
  | ErrSyntax
  | ErrRange
  deriving DecidableEq, Repr

/-- The digit loop of the fast path of `Atoi`:
`for _, ch := range []byte(s) { ch -= '0'; if ch > 9 { syntax error }; n = n*10 + int(ch) }`. -/
def atoiFast : List Char → Nat → Option Nat
  | [], n => some n
  | c :: cs, n => if isDigit c then atoiFast cs (n * 10 + digitVal c) else none

/-- The digit loop of `ParseUint(s, 10, 64)`: `cutoff = maxUint64/10 + 1`,
`maxVal = 1<<64 - 1`; on overflow it returns `maxVal` with a range error at once. -/
def parseUintLoop : List Char → Nat → Nat × Option NumError
  | [], n => (n, none)
  | c :: cs, n =>
    if isDigit c then
      if n ≥ (2 ^ 64 - 1) / 10 + 1 then (2 ^ 64 - 1, some .ErrRange)
      else if n * 10 + digitVal c > 2 ^ 64 - 1 then (2 ^ 64 - 1, some .ErrRange)
      else parseUintLoop cs (n * 10 + digitVal c)
    else (0, some .ErrSyntax)

/-- The function `strconv.ParseUint(s, 10, 64)`. -/
def ParseUint (s : List Char) : Nat × Option NumError :=
  match s with
  | [] => (0, some .ErrSyntax)
  | _ => parseUintLoop s 0

/-- The function `strconv.ParseInt(s, 10, 0)` with a 64-bit `int`. -/
def ParseInt (s : List Char) : Int × Option NumError :=
  match s with
  | [] => (0, some .ErrSyntax)
  | c :: cs =>
    let neg := c = '-'
    let s1 := if c = '+' ∨ c = '-' then cs else s
    match ParseUint s1 with
    | (_, some .ErrSyntax) => (0, some .ErrSyntax)
    | (un, _) =>
      if ¬ neg ∧ un ≥ 2 ^ 63 then (2 ^ 63 - 1, some .ErrRange)
      else if neg ∧ un > 2 ^ 63 then (-(2 ^ 63), some .ErrRange)
      else (if neg then -(un : Int) else (un : Int), none)

/-- The function `strconv.Atoi` on a platform whose `int` has 64 bits: a fast path for strings of
1 to 18 bytes, and `ParseInt(s, 10, 0)` otherwise. -/
def Atoi (s : String) : Int × Option NumError :=
  let b := s.toList
  if 0 < byteLen b ∧ byteLen b < 19 then
    match b with
    | [] => (0, some .ErrSyntax)
    | c :: cs =>
      let digits := if c = '-' ∨ c = '+' then cs else b
      if (c = '-' ∨ c = '+') ∧ digits.length < 1 then (0, some .ErrSyntax)
      else
        match atoiFast digits 0 with
        | none => (0, some .ErrSyntax)
        | some n => (if c = '-' then -(n : Int) else (n : Int), none)
  else ParseInt b

end strconv

namespace float64

/-- The number of binary digits of `n`, by halving at most `fuel` times. -/
def bitLenAux : Nat → Nat → Nat
  | 0, _ => 0
  | fuel + 1, n => if n = 0 then 0 else bitLenAux fuel (n / 2) + 1

/-- The number of binary digits of `n` (`n` halvings always suffice). -/
def bitLen (n : Nat) : Nat := bitLenAux n n

/-- A non-negative binary floating-point value `m * 2 ^ e`. -/
structure F64 where
  m : Nat
  e : Int
  deriving DecidableEq, Repr

/-- The fraction `(num / den) / 2 ^ e` as a numerator and a denominator. -/
def scaled (num den : Nat) (e : Int) : Nat × Nat :=
  if 0 ≤ e then (num, den * 2 ^ e.toNat) else (num * 2 ^ (-e).toNat, den)

/-- Rounding of the positive fraction `num / den` to 53 significant bits, to nearest,
ties to even: the rounding of every binary64 operation. The exponent is not
bounded here; see `time.fractionNanos` for why that does not matter to its caller. -/
def round (num den : Nat) : F64 :=
  if num = 0 then ⟨0, 0⟩
  else
    let e0 : Int := (bitLen num : Int) - (bitLen den : Int) - 52
    let e : Int := if 2 ^ 52 ≤ (scaled num den e0).1 / (scaled num den e0).2 then e0 else e0 - 1
    let n := (scaled num den e).1
    let d := (scaled num den e).2
    let q := n / d
    let r := n % d
    if d < 2 * r then ⟨q + 1, e⟩
    else if 2 * r = d then ⟨q + q % 2, e⟩
    else ⟨q, e⟩

/-- The value of `x` as a numerator and a denominator. -/
def F64.toFrac (x : F64) : Nat × Nat :=
  if 0 ≤ x.e then (x.m * 2 ^ x.e.toNat, 1) else (x.m, 2 ^ (-x.e).toNat)

/-- The conversion `float64(n)` of a `uint64`. -/
def ofNat (n : Nat) : F64 := round n 1

/-- The product `x * y`, rounded. -/
def mul (x y : F64) : F64 :=
  round (x.toFrac.1 * y.toFrac.1) (x.toFrac.2 * y.toFrac.2)

/-- The quotient `x / y`, rounded (`y` positive). -/
def div (x y : F64) : F64 :=
  round (x.toFrac.1 * y.toFrac.2) (x.toFrac.2 * y.toFrac.1)

/-- The conversion `uint64(x)`: truncation toward zero. The value is below `2 ^ 64`
wherever `time.ParseDuration` converts; the reduction is there for the type alone. -/
def toUint64 (x : F64) : Nat := (x.toFrac.1 / x.toFrac.2) % 2 ^ 64

end float64

namespace time
open Go

/-- The type `time.Duration`: an `int64` count of nanoseconds. -/
abbrev Duration := Int

/-- The constant `time.Nanosecond`. -/
def Nanosecond : Duration := 1
/-- The constant `time.Microsecond`. -/
def Microsecond : Duration := 1000 * Nanosecond
/-- The constant `time.Millisecond`. -/
def Millisecond : Duration := 1000 * Microsecond
/-- The constant `time.Second`. -/
def Second : Duration := 1000 * Millisecond
/-- The constant `time.Minute`. -/
def Minute : Duration := 60 * Second
/-- The constant `time.Hour`. -/
def Hour : Duration := 60 * Minute

/-- The product of two durations in `int64` arithmetic. -/
def Duration.mul (a b : Duration) : Duration := wrap64 (a * b)

/-- The three messages `time.ParseDuration` fails with. -/
inductive DurationError where
  | invalidDuration
  | missingUnit
  | unknownUnit
  deriving DecidableEq, Repr

/-- The table `unitMap`, with its values as `uint64`. -/
def unitMap (u : List Char) : Option Nat :=
  if u = "ns".toList then some 1
  else if u = "us".toList then some 1000
  else if u = "µs".toList then some 1000
  else if u = "μs".toList then some 1000
  else if u = "ms".toList then some 1000000
  else if u = "s".toList then some 1000000000
  else if u = "m".toList then some 60000000000
  else if u = "h".toList then some 3600000000000
  else none

/-- The function `leadingInt`: the leading `[0-9]*` of `s` as a `uint64` and the rest of
`s`; `none` is `errLeadingInt`, raised when the value exceeds `1 << 63`. -/
def leadingInt : List Char → Nat → Option (Nat × List Char)
  | [], x => some (x, [])
  | c :: cs, x =>
    if isDigit c then
      if 2 ^ 63 / 10 < x then none
      else if 2 ^ 63 < x * 10 + digitVal c then none
      else leadingInt cs (x * 10 + digitVal c)
    else some (x, c :: cs)

/-- The function `leadingFraction`: the leading `[0-9]*` of `s` as a `uint64` numerator
`x` and a `float64` denominator `scale`, and the rest of `s`. Once the numerator would
exceed `1 << 63` the remaining digits are skipped. -/
def leadingFraction : List Char → Nat → float64.F64 → Bool → Nat × float64.F64 × List Char
  | [], x, scale, _ => (x, scale, [])
  | c :: cs, x, scale, overflow =>
    if isDigit c then
      if overflow then leadingFraction cs x scale true
      else if (2 ^ 63 - 1) / 10 < x then leadingFraction cs x scale true
      else if 2 ^ 63 < x * 10 + digitVal c then leadingFraction cs x scale true
      else leadingFraction cs (x * 10 + digitVal c) (float64.mul scale (float64.ofNat 10)) false
    else (x, scale, c :: cs)

/-- The expression `uint64(float64(f) * (float64(unit) / scale))`. The float model has
an unbounded exponent; binary64 differs from it only where `scale` is beyond
`1e290`, and there both give a product below one, which truncates to zero. -/
def fractionNanos (f unit : Nat) (scale : float64.F64) : Nat :=
  float64.toUint64 (float64.mul (float64.ofNat f) (float64.div (float64.ofNat unit) scale))

/-- The length of the unit: the index of the first `.` or digit of `s`. -/
def unitLen : List Char → Nat
  | [] => 0
  | c :: cs => if c = '.' ∨ isDigit c = true then 0 else unitLen cs + 1

/-- The state of the main loop of `ParseDuration` when it stops. -/
inductive LoopResult where
  | outOfFuel
  | fail (e : DurationError)
  | done (d : Nat)
  deriving DecidableEq, Repr

/-- The loop `for s != ""` of `ParseDuration`, with the accumulator `d` a `uint64`.
Every iteration consumes at least one byte, so `fuel = len(s)` iterations suffice. -/
def parseLoop : Nat → List Char → Nat → LoopResult
  | _, [], d => .done d
  | 0, _ :: _, _ => .outOfFuel
  | fuel + 1, c :: cs, d =>
    if ¬ (c = '.' ∨ isDigit c = true) then .fail .invalidDuration
    else
      match leadingInt (c :: cs) 0 with
      | none => .fail .invalidDuration
      | some (v, s1) =>
        let pre : Bool := decide ((c :: cs).length ≠ s1.length)
        let hasDot : Bool := decide (s1.head? = some '.')
        let fr := if hasDot then leadingFraction s1.tail 0 (float64.ofNat 1) false
                  else (0, float64.ofNat 1, s1)
        let post : Bool := hasDot && decide (s1.tail.length ≠ fr.2.2.length)
        if pre = false ∧ post = false then .fail .invalidDuration
        else if unitLen fr.2.2 = 0 then .fail .missingUnit
        else
          match unitMap (fr.2.2.take (unitLen fr.2.2)) with
          | none => .fail .unknownUnit
          | some unit =>
            if 2 ^ 63 / unit < v then .fail .invalidDuration
            else
              let v2 := if 0 < fr.1 then v * unit + fractionNanos fr.1 unit fr.2.1 else v * unit
              if 0 < fr.1 ∧ 2 ^ 63 < v2 then .fail .invalidDuration
              else if 2 ^ 63 < (d + v2) % 2 ^ 64 then .fail .invalidDuration
              else parseLoop fuel (fr.2.2.drop (unitLen fr.2.2)) ((d + v2) % 2 ^ 64)

/-- The function `time.ParseDuration`. -/
def ParseDuration (str : String) : Duration × Option DurationError :=
  let orig := str.toList
  let neg : Bool := decide (orig.head? = some '-')
  let s := if orig.head? = some '-' ∨ orig.head? = some '+' then orig.tail else orig
  if s = ['0'] then (0, none)
  else if s = [] then (0, some .invalidDuration)
  else
    match parseLoop s.length s 0 with
    | .done d =>
      if neg then (wrap64 (-(wrap64 (d : Int))), none)
      else if 2 ^ 63 - 1 < d then (0, some .invalidDuration)
      else ((d : Int), none)
    | .fail e => (0, some e)
    | .outOfFuel => (0, some .invalidDuration)

end time


namespace kconfig
open Go

/-- Modelled from the spec: the base configuration of `kiagnose/config`, whose type
declaration is outside this repository, is "an object exposing pod name, pod UID, and
a string-to-string parameter mapping". -/
structure Config where
  PodName : String
  PodUID : String
  Params : StringMap
  deriving DecidableEq, Repr

end kconfig

namespace config
open Go

/-- The constant `TargetNodeParamName`. -/
def TargetNodeParamName : String := "targetNode"
/-- The constant `GuestImageSourcePVCNamespaceParamName`. -/
def GuestImageSourcePVCNamespaceParamName : String := "guestImageSourcePVCNamespace"
/-- The constant `GuestImageSourcePVCNameParamName`. -/
def GuestImageSourcePVCNameParamName : String := "guestImageSourcePVCName"
/-- The constant `OslatDurationParamName`. -/
def OslatDurationParamName : String := "oslatDuration"
/-- The constant `OslatLatencyThresholdParamName`. -/
def OslatLatencyThresholdParamName : String := "oslatLatencyThresholdMicroSeconds"

/-- The constant `OslatDefaultDuration = 5 * time.Minute`. -/
def OslatDefaultDuration : time.Duration := 5 * time.Minute
/-- The constant `OslatDefaultLatencyThreshold = 40 * time.Microsecond`. -/
def OslatDefaultLatencyThreshold : time.Duration := 40 * time.Microsecond

/-- The two error values the package declares. -/
inductive Error where
  | ErrInvalidOslatDuration
  | ErrInvalidOslatLatencyThreshold
  deriving DecidableEq, Repr

/-- The struct `Config`. -/
structure Config where
  PodName : String
  PodUID : String
  TargetNode : String
  GuestImageSourcePVCNamespace : String
  GuestImageSourcePVCName : String
  OslatDuration : time.Duration
  OslatLatencyThreshold : time.Duration
  deriving DecidableEq, Repr

/-- The zero value `Config{}`. -/
def Config.zero : Config := ⟨"", "", "", "", "", 0, 0⟩

/-- The function `New`. On a 64-bit platform the conversion `time.Duration(n)` of an
`int` is the identity, and the product with `time.Microsecond` is an `int64` product.
A Go `if` with an early `return` is the `Option` bound just before the `match`. -/
def New (baseConfig : kconfig.Config) : Config × Option Error :=
  let newConfig : Config :=
    { PodName := baseConfig.PodName
      PodUID := baseConfig.PodUID
      TargetNode := baseConfig.Params.get TargetNodeParamName
      GuestImageSourcePVCNamespace := baseConfig.Params.get GuestImageSourcePVCNamespaceParamName
      GuestImageSourcePVCName := baseConfig.Params.get GuestImageSourcePVCNameParamName
      OslatDuration := OslatDefaultDuration
      OslatLatencyThreshold := OslatDefaultLatencyThreshold }
  let rawOslatDuration := baseConfig.Params.get OslatDurationParamName
  let afterDuration : Option Config :=
    if rawOslatDuration ≠ "" then
      match time.ParseDuration rawOslatDuration with
      | (_, some _) => none
      | (oslatDuration, none) => some { newConfig with OslatDuration := oslatDuration }
    else some newConfig
  match afterDuration with
  | none => (Config.zero, some .ErrInvalidOslatDuration)
  | some newConfig =>
    let rawOslatLatencyThreshold := baseConfig.Params.get OslatLatencyThresholdParamName
    if rawOslatLatencyThreshold ≠ "" then
      match strconv.Atoi rawOslatLatencyThreshold with
      | (_, some _) => (Config.zero, some .ErrInvalidOslatLatencyThreshold)
      | (oslatLatencyThresholdMicroSeconds, none) =>
        ({ newConfig with
           OslatLatencyThreshold :=
             time.Duration.mul oslatLatencyThresholdMicroSeconds time.Microsecond }, none)
    else (newConfig, none)

/-- The first `if` block of `New` on its own: the duration `New` goes on with (the
default, or the parsed value), or `none` where `New` returns `ErrInvalidOslatDuration`. -/
def durationStep (raw : String) : Option time.Duration :=
  if raw ≠ "" then
    match time.ParseDuration raw with
    | (_, some _) => none
    | (d, none) => some d
  else some OslatDefaultDuration

/-- The second `if` block of `New` on its own: the threshold `New` returns (the default,
or the converted value), or `none` where `New` returns `ErrInvalidOslatLatencyThreshold`. -/
def thresholdStep (raw : String) : Option time.Duration :=
  if raw ≠ "" then
    match strconv.Atoi raw with
    | (_, some _) => none
    | (n, none) => some (time.Duration.mul n time.Microsecond)
  else some OslatDefaultLatencyThreshold

/-- The configuration map of `newConfigMap` in `tests/checkup_test.go`, as the base
configuration the reader hands to `New` (the `spec.param.` prefix removed). -/
def testBaseConfig : kconfig.Config :=
  { PodName := "rt-checkup-pod"
    PodUID := "0123-4567"
    Params :=
      [("targetNode", "my-node"),
       ("guestImageSourcePVCNamespace", "test-ns"),
       ("guestImageSourcePVCName", "my-rt-vm"),
       ("oslatDuration", "6m"),
       ("oslatLatencyThresholdMicroSeconds", "45")] }

end config

namespace kubecli

/-- The part of the interface `kubecli.KubevirtClient` the wrapper calls: the three
blocking remote calls `VirtualMachineInstance(namespace).Create(vmi)`, `.Get(name, opts)`
and `.Delete(name, opts)`, each given by the result it returns. A pointer
`*VirtualMachineInstance` is an `Option VMI`, an `error` an `Option Err`. -/
structure KubevirtClient (VMI Err : Type) where
  Create : String → Option VMI → Option VMI × Option Err
  Get : String → String → Option VMI × Option Err
  Delete : String → String → Option Err

end kubecli

namespace client

/-- The struct `Client`, which embeds a `kubecli.KubevirtClient`. -/
structure Client (KC : Type) where
  KubevirtClient : KC

/-- The struct `resultWrapper`. -/
structure resultWrapper (VMI Err : Type) where
  vmi : Option VMI
  err : Option Err
  deriving DecidableEq, Repr

/-- The function `New`. Its two collaborators `rest.InClusterConfig` and
`kubecli.GetKubevirtClientFromRESTConfig` act on an environment `W`. -/
def New {W RestConfig KC Err : Type}
    (inClusterConfig : W → (Option RestConfig × Option Err) × W)
    (getKubevirtClientFromRESTConfig : Option RestConfig → W → (KC × Option Err) × W)
    (w : W) : (Option (Client KC) × Option Err) × W :=
  match inClusterConfig w with
  | ((_, some err), w1) => ((none, some err), w1)
  | ((config, none), w1) =>
    match getKubevirtClientFromRESTConfig config w1 with
    | ((_, some err), w2) => ((none, some err), w2)
    | ((client, none), w2) => ((some ⟨client⟩, none), w2)

/-- What can happen, one at a time, between the `go` statement of an operation and
its return: the goroutine's remote call returns and its result is sent on `resultCh`;
the context's cancellation signal fires, after which `ctx.Err()` is `e`; the `select`
proceeds with the receive from `resultCh`; the `select` proceeds with the receive from
`ctx.Done()`. -/
inductive Event (Err : Type) where
  | send
  | cancel (e : Err)
  | selectResult
  | selectDone
  deriving DecidableEq, Repr

/-- The state of one operation: whether the goroutine has sent, the content of the
channel `resultCh` (capacity one), `ctx.Err()` (`none` until `ctx.Done()` is closed),
and the values the operation returned, once it has. -/
structure CallState (R Err O : Type) where
  sent : Bool
  resultCh : Option R
  ctxErr : Option Err
  returned : Option O

/-- One event. An event that cannot happen in a state leaves it unchanged: the goroutine
sends once, a context is cancelled once, a `select` case proceeds only when its channel
is ready and the operation has not returned. With both channels ready either case may
proceed. -/
def step {R Err O : Type} (remote : R) (onResult : R → O) (onDone : Err → O)
    (st : CallState R Err O) : Event Err → CallState R Err O
  | .send => if st.sent then st else { st with sent := true, resultCh := some remote }
  | .cancel e =>
    match st.ctxErr with
    | none => { st with ctxErr := some e }
    | some _ => st
  | .selectResult =>
    match st.returned, st.resultCh with
    | none, some result => { st with resultCh := none, returned := some (onResult result) }
    | _, _ => st
  | .selectDone =>
    match st.returned, st.ctxErr with
    | none, some e => { st with returned := some (onDone e) }
    | _, _ => st

/-- The events of a schedule, in order. -/
def run {R Err O : Type} (remote : R) (onResult : R → O) (onDone : Err → O)
    (st : CallState R Err O) (sched : List (Event Err)) : CallState R Err O :=
  sched.foldl (step remote onResult onDone) st

/-- The state after `resultCh := make(chan ..., 1)` and the `go` statement, with a
context whose `Err()` is `ctx` at that moment. -/
def start {R Err O : Type} (ctx : Option Err) : CallState R Err O :=
  { sent := false, resultCh := none, ctxErr := ctx, returned := none }

/-- The method `CreateVirtualMachineInstance`: what it returns under a schedule, `none`
while it is still blocked in the `select`. -/
def Client.CreateVirtualMachineInstance {VMI Err : Type}
    (c : Client (kubecli.KubevirtClient VMI Err)) (ctx : Option Err) (namespace_ : String)
    (vmi : Option VMI) (sched : List (Event Err)) : Option (Option VMI × Option Err) :=
  (run
    (let r := c.KubevirtClient.Create namespace_ vmi; (⟨r.1, r.2⟩ : resultWrapper VMI Err))
    (fun result => (result.vmi, result.err))
    (fun e => (none, some e))
    (start ctx) sched).returned

/-- The method `GetVirtualMachineInstance`. -/
def Client.GetVirtualMachineInstance {VMI Err : Type}
    (c : Client (kubecli.KubevirtClient VMI Err)) (ctx : Option Err) (namespace_ name : String)
    (sched : List (Event Err)) : Option (Option VMI × Option Err) :=
  (run
    (let r := c.KubevirtClient.Get namespace_ name; (⟨r.1, r.2⟩ : resultWrapper VMI Err))
    (fun result => (result.vmi, result.err))
    (fun e => (none, some e))
    (start ctx) sched).returned

/-- The method `DeleteVirtualMachineInstance`, whose channel carries the `error` alone. -/
def Client.DeleteVirtualMachineInstance {VMI Err : Type}
    (c : Client (kubecli.KubevirtClient VMI Err)) (ctx : Option Err) (namespace_ name : String)
    (sched : List (Event Err)) : Option (Option Err) :=
  (run
    (c.KubevirtClient.Delete namespace_ name)
    (fun err => err)
    (fun e => some e)
    (start ctx) sched).returned

/-- A client whose remote calls answer at once: `Create` returns the instance it was
given, `Get` finds every name but `missing`, `Delete` succeeds. -/
def exampleClient : Client (kubecli.KubevirtClient String String) :=
  ⟨{ Create := fun _ vmi => (vmi, none)
     Get := fun _ name => if name = "missing" then (none, some "not found") else (some name, none)
     Delete := fun _ _ => none }⟩

end client

namespace pkg

/-- The function `Run`. The reader `kconfig.Read` is a collaborator acting on the same
environment as those of `client.New`; the configuration it returns is discarded. -/
def Run {W RestConfig KC Err BaseConfig : Type}
    (inClusterConfig : W → (Option RestConfig × Option Err) × W)
    (getKubevirtClientFromRESTConfig : Option RestConfig → W → (KC × Option Err) × W)
    (read : Option (client.Client KC) → Go.StringMap → W → (BaseConfig × Option Err) × W)
    (rawEnv : Go.StringMap) (w : W) : Option Err × W :=
  match client.New inClusterConfig getKubevirtClientFromRESTConfig w with
  | ((_, some err), w1) => (some err, w1)
  | ((c, none), w1) =>
    match read c rawEnv w1 with
    | ((_, some err), w2) => (some err, w2)
    | ((_, none), w2) => (none, w2)

/-- A stand-in for `rest.InClusterConfig` on an environment that is the log of the
collaborators called so far; it fails when `ok` is false. -/
def exampleInClusterConfig (ok : Bool) (w : List String) :
    (Option String × Option String) × List String :=
  (if ok then (some "rest-config", none) else (none, some "not in cluster"),
    w ++ ["rest.InClusterConfig"])

/-- A stand-in for `kubecli.GetKubevirtClientFromRESTConfig` on the same log. -/
def exampleGetKubevirtClient (ok : Bool) (_config : Option String) (w : List String) :
    (String × Option String) × List String :=
  (if ok then ("kubevirt-client", none) else ("", some "bad rest config"),
    w ++ ["kubecli.GetKubevirtClientFromRESTConfig"])

/-- A stand-in for `kconfig.Read` on the same log. -/
def exampleRead (ok : Bool) (_c : Option (client.Client String)) (_rawEnv : Go.StringMap)
    (w : List String) : (kconfig.Config × Option String) × List String :=
  (if ok then (config.testBaseConfig, none) else (⟨"", "", []⟩, some "config map not found"),
    w ++ ["kconfig.Read"])

end pkg

/-! ## The standard library: `time.ParseDuration` always returns -/

namespace time
open Go

theorem leadingInt_length :
    ∀ (s : List Char) (x v : Nat) (rem : List Char),
      leadingInt s x = some (v, rem) → rem.length ≤ s.length
  | [], x, v, rem, h => by
    simp only [leadingInt, Option.some.injEq, Prod.mk.injEq] at h
    simp [← h.2]
  | c :: cs, x, v, rem, h => by
    unfold leadingInt at h
    split_ifs at h
    · exact (leadingInt_length cs _ v rem h).trans (Nat.le_succ _)
    · simp only [Option.some.injEq, Prod.mk.injEq] at h
      simp [← h.2]

theorem leadingFraction_length :
    ∀ (s : List Char) (x : Nat) (scale : float64.F64) (overflow : Bool),
      (leadingFraction s x scale overflow).2.2.length ≤ s.length
  | [], x, scale, overflow => by simp [leadingFraction]
  | c :: cs, x, scale, overflow => by
    unfold leadingFraction
    split_ifs
    · exact (leadingFraction_length cs _ _ _).trans (Nat.le_succ _)
    · exact (leadingFraction_length cs _ _ _).trans (Nat.le_succ _)
    · exact (leadingFraction_length cs _ _ _).trans (Nat.le_succ _)
    · exact (leadingFraction_length cs _ _ _).trans (Nat.le_succ _)
    · simp

/-- Every iteration of the loop of `ParseDuration` shortens the string, so the loop
ends within `len(s)` iterations: the model never runs out of fuel. -/
theorem parseLoop_fuel :
    ∀ (fuel : Nat) (s : List Char) (d : Nat), s.length ≤ fuel → parseLoop fuel s d ≠ .outOfFuel
  | 0, [], d, _ => by simp [parseLoop]
  | _ + 1, [], d, _ => by simp [parseLoop]
  | 0, c :: cs, d, h => by simp at h
  | fuel + 1, c :: cs, d, h => by
    unfold parseLoop
    split_ifs with h1
    · split
      · simp
      · rename_i v s1 hInt
        have hs1 : s1.length ≤ fuel + 1 := (leadingInt_length _ _ _ _ hInt).trans h
        have hfr :
            (if decide (s1.head? = some '.') = true then
                leadingFraction s1.tail 0 (float64.ofNat 1) false
              else (0, float64.ofNat 1, s1)).2.2.length ≤ fuel + 1 := by
          split_ifs
          · exact (leadingFraction_length _ _ _ _).trans
              ((List.length_tail s1 ▸ Nat.sub_le _ _).trans hs1)
          · exact hs1
        simp only []
        generalize (if decide (s1.head? = some '.') = true then
                leadingFraction s1.tail 0 (float64.ofNat 1) false
              else (0, float64.ofNat 1, s1)) = fr at hfr ⊢
        split_ifs with h2 h3 <;>
          first
          | (simp; done)
          | (split <;>
              first
              | (simp; done)
              | (split_ifs <;>
                  first
                  | (simp; done)
                  | (apply parseLoop_fuel; rw [List.length_drop]; omega)))
    · simp

/-- The loop of `ParseDuration`, started as `ParseDuration` starts it, returns. -/
theorem ParseDuration_loop_returns (s : List Char) : parseLoop s.length s 0 ≠ .outOfFuel :=
  parseLoop_fuel _ s 0 (Nat.le_refl _)

end time

/-! ## The configuration loader -/

namespace config
open Go

theorem New_eq_steps (base : kconfig.Config) :
    New base =
      match durationStep (base.Params.get OslatDurationParamName) with
      | none => (Config.zero, some .ErrInvalidOslatDuration)
      | some d =>
        match thresholdStep (base.Params.get OslatLatencyThresholdParamName) with
        | none => (Config.zero, some .ErrInvalidOslatLatencyThreshold)
        | some t =>
          (⟨base.PodName, base.PodUID, base.Params.get TargetNodeParamName,
            base.Params.get GuestImageSourcePVCNamespaceParamName,
            base.Params.get GuestImageSourcePVCNameParamName, d, t⟩, none) := by
  unfold New durationStep thresholdStep
  by_cases hd : base.Params.get OslatDurationParamName = ""
  · by_cases ht : base.Params.get OslatLatencyThresholdParamName = ""
    · simp [hd, ht]
    · rcases hA : strconv.Atoi (base.Params.get OslatLatencyThresholdParamName) with ⟨n, _ | e⟩ <;>
        simp [hd, ht, hA]
  · rcases hP : time.ParseDuration (base.Params.get OslatDurationParamName) with ⟨d, _ | e⟩
    · by_cases ht : base.Params.get OslatLatencyThresholdParamName = ""
      · simp [hd, ht, hP]
      · rcases hA : strconv.Atoi (base.Params.get OslatLatencyThresholdParamName) with ⟨n, _ | e⟩ <;>
          simp [hd, ht, hP, hA]
    · simp [hd, hP]

theorem get_eq_empty_of_absent_or_empty (m : StringMap) (k : String)
    (h : m.lookup k = none ∨ m.lookup k = some "") : m.get k = "" := by
  rcases h with h | h <;> simp [StringMap.get, h]

theorem durationStep_empty : durationStep "" = some OslatDefaultDuration := by
  simp [durationStep]

theorem thresholdStep_empty : thresholdStep "" = some OslatDefaultLatencyThreshold := by
  simp [thresholdStep]

theorem durationStep_ok (raw : String) (d : time.Duration) (h : raw ≠ "")
    (hp : time.ParseDuration raw = (d, none)) : durationStep raw = some d := by
  simp [durationStep, h, hp]

theorem durationStep_err (raw : String) (h : raw ≠ "") (hp : (time.ParseDuration raw).2 ≠ none) :
    durationStep raw = none := by
  rcases hP : time.ParseDuration raw with ⟨d, _ | e⟩
  · simp [hP] at hp
  · simp [durationStep, h, hP]

theorem thresholdStep_ok (raw : String) (n : Int) (h : raw ≠ "")
    (hp : strconv.Atoi raw = (n, none)) :
    thresholdStep raw = some (time.Duration.mul n time.Microsecond) := by
  simp [thresholdStep, h, hp]

theorem thresholdStep_err (raw : String) (h : raw ≠ "") (hp : (strconv.Atoi raw).2 ≠ none) :
    thresholdStep raw = none := by
  rcases hP : strconv.Atoi raw with ⟨d, _ | e⟩
  · simp [hP] at hp
  · simp [thresholdStep, h, hP]

theorem default_values :
    OslatDefaultDuration = 300000000000 ∧ OslatDefaultLatencyThreshold = 40000 ∧
      5 * time.Minute = (300000000000 : Int) ∧ 40 * time.Microsecond = (40000 : Int) := by
  decide

theorem durationStep_isSome (raw : String)
    (h : raw = "" ∨ (time.ParseDuration raw).2 = none) : ∃ d, durationStep raw = some d := by
  by_cases he : raw = ""
  · exact ⟨_, he ▸ durationStep_empty⟩
  · rcases h with h | h
    · exact absurd h he
    · rcases hP : time.ParseDuration raw with ⟨d, _ | e⟩
      · exact ⟨d, durationStep_ok raw d he hP⟩
      · simp [hP] at h

theorem thresholdStep_isSome (raw : String)
    (h : raw = "" ∨ (strconv.Atoi raw).2 = none) : ∃ t, thresholdStep raw = some t := by
  by_cases he : raw = ""
  · exact ⟨_, he ▸ thresholdStep_empty⟩
  · rcases h with h | h
    · exact absurd h he
    · rcases hP : strconv.Atoi raw with ⟨n, _ | e⟩
      · exact ⟨_, thresholdStep_ok raw n he hP⟩
      · simp [hP] at h

/-- C1 as stated fails. With the `oslatDuration` key absent and a threshold value that
does not parse, `New` returns `Config{}` with the threshold error: the duration it
yields is 0, not 5 minutes. With the threshold key absent and a duration value that
does not parse, it returns `Config{}` with the duration error: the threshold it yields
is 0, not 40 microseconds. -/
theorem New_defaults_not_independent :
    (List.lookup OslatDurationParamName [("oslatLatencyThresholdMicroSeconds", "xyz")] = none ∧
      New ⟨"pod", "uid", [("oslatLatencyThresholdMicroSeconds", "xyz")]⟩ =
        (Config.zero, some .ErrInvalidOslatLatencyThreshold) ∧
      (New ⟨"pod", "uid", [("oslatLatencyThresholdMicroSeconds", "xyz")]⟩).1.OslatDuration ≠
        5 * time.Minute) ∧
    (List.lookup OslatLatencyThresholdParamName [("oslatDuration", "soon")] = none ∧
      New ⟨"pod", "uid", [("oslatDuration", "soon")]⟩ =
        (Config.zero, some .ErrInvalidOslatDuration) ∧
      (New ⟨"pod", "uid", [("oslatDuration", "soon")]⟩).1.OslatLatencyThreshold ≠
        40 * time.Microsecond) := by
  decide

/-- C1, amended. When the `oslatDuration` key is absent or empty: if the threshold value
is absent, empty or converts, `New` succeeds and `OslatDuration` is 5 minutes; if the
threshold value is non-empty and does not convert, `New` returns `Config{}` with
`ErrInvalidOslatLatencyThreshold`. When the `oslatLatencyThresholdMicroSeconds` key is
absent or empty: if the duration value is absent, empty or parses, `New` succeeds and
`OslatLatencyThreshold` is 40 microseconds; if the duration value is non-empty and does
not parse, `New` returns `Config{}` with `ErrInvalidOslatDuration`. On an empty
parameter map `New` succeeds with exactly 5 minutes and 40 microseconds. -/
theorem New_defaults (base : kconfig.Config) :
    ((base.Params.lookup OslatDurationParamName = none ∨
        base.Params.lookup OslatDurationParamName = some "") →
      ((base.Params.get OslatLatencyThresholdParamName = "" ∨
          (strconv.Atoi (base.Params.get OslatLatencyThresholdParamName)).2 = none) →
        (New base).2 = none ∧ (New base).1.OslatDuration = 5 * time.Minute) ∧
      (base.Params.get OslatLatencyThresholdParamName ≠ "" →
        (strconv.Atoi (base.Params.get OslatLatencyThresholdParamName)).2 ≠ none →
        New base = (Config.zero, some .ErrInvalidOslatLatencyThreshold))) ∧
    ((base.Params.lookup OslatLatencyThresholdParamName = none ∨
        base.Params.lookup OslatLatencyThresholdParamName = some "") →
      ((base.Params.get OslatDurationParamName = "" ∨
          (time.ParseDuration (base.Params.get OslatDurationParamName)).2 = none) →
        (New base).2 = none ∧ (New base).1.OslatLatencyThreshold = 40 * time.Microsecond) ∧
      (base.Params.get OslatDurationParamName ≠ "" →
        (time.ParseDuration (base.Params.get OslatDurationParamName)).2 ≠ none →
        New base = (Config.zero, some .ErrInvalidOslatDuration))) ∧
    (base.Params = [] →
      New base =
        (⟨base.PodName, base.PodUID, "", "", "", 5 * time.Minute, 40 * time.Microsecond⟩, none)) := by
  refine ⟨fun h => ⟨fun ht => ?_, fun ht hp => ?_⟩, fun h => ⟨fun hd => ?_, fun hd hp => ?_⟩,
    fun h => ?_⟩
  · have hg := get_eq_empty_of_absent_or_empty _ _ h
    obtain ⟨t, hT⟩ := thresholdStep_isSome _ ht
    rw [New_eq_steps, hg, durationStep_empty, hT]
    exact ⟨rfl, default_values.1.trans default_values.2.2.1.symm⟩
  · have hg := get_eq_empty_of_absent_or_empty _ _ h
    rw [New_eq_steps, hg, durationStep_empty, thresholdStep_err _ ht hp]
  · have hg := get_eq_empty_of_absent_or_empty _ _ h
    obtain ⟨d, hD⟩ := durationStep_isSome _ hd
    rw [New_eq_steps, hg, thresholdStep_empty, hD]
    exact ⟨rfl, default_values.2.1.trans default_values.2.2.2.symm⟩
  · rw [New_eq_steps, durationStep_err _ hd hp]
  · rw [New_eq_steps, h]
    simp [StringMap.get, durationStep_empty, thresholdStep_empty, default_values.1,
      default_values.2.1, default_values.2.2.1, default_values.2.2.2]

theorem New_defaults_witness :
    ((New ⟨"pod", "uid", [("oslatLatencyThresholdMicroSeconds", "50")]⟩).2 = none ∧
        (New ⟨"pod", "uid", [("oslatLatencyThresholdMicroSeconds", "50")]⟩).1.OslatDuration =
          5 * time.Minute) ∧
      ((New ⟨"pod", "uid", [("oslatDuration", "7m"), ("oslatLatencyThresholdMicroSeconds", "")]⟩).2
          = none ∧
        (New ⟨"pod", "uid",
            [("oslatDuration", "7m"), ("oslatLatencyThresholdMicroSeconds", "")]⟩).1.OslatLatencyThreshold
          = 40 * time.Microsecond) ∧
      New ⟨"pod", "uid", [("oslatDuration", ""), ("oslatLatencyThresholdMicroSeconds", "4x")]⟩ =
        (Config.zero, some .ErrInvalidOslatLatencyThreshold) ∧
      New ⟨"pod", "uid", [("oslatDuration", "5 minutes")]⟩ =
        (Config.zero, some .ErrInvalidOslatDuration) ∧
      New ⟨"pod", "uid", []⟩ =
        (⟨"pod", "uid", "", "", "", 5 * time.Minute, 40 * time.Microsecond⟩, none) :=
  ⟨((New_defaults ⟨"pod", "uid", [("oslatLatencyThresholdMicroSeconds", "50")]⟩).1
      (Or.inl (by decide))).1 (Or.inr (by decide)),
    ((New_defaults
      ⟨"pod", "uid", [("oslatDuration", "7m"), ("oslatLatencyThresholdMicroSeconds", "")]⟩).2.1
      (Or.inr (by decide))).1 (Or.inr (by decide)),
    ((New_defaults
      ⟨"pod", "uid", [("oslatDuration", ""), ("oslatLatencyThresholdMicroSeconds", "4x")]⟩).1
      (Or.inr (by decide))).2 (by decide) (by decide),
    ((New_defaults ⟨"pod", "uid", [("oslatDuration", "5 minutes")]⟩).2.1
      (Or.inl (by decide))).2 (by decide) (by decide),
    (New_defaults ⟨"pod", "uid", []⟩).2.2 rfl⟩

/-- Where both raw values are non-empty and parse, `New` succeeds with the parsed
duration and with the `int64` product of the converted threshold and `time.Microsecond`. -/
theorem New_parsed (base : kconfig.Config) (d : time.Duration) (n : Int)
    (hd : base.Params.get OslatDurationParamName ≠ "")
    (hpd : time.ParseDuration (base.Params.get OslatDurationParamName) = (d, none))
    (ht : base.Params.get OslatLatencyThresholdParamName ≠ "")
    (hpt : strconv.Atoi (base.Params.get OslatLatencyThresholdParamName) = (n, none)) :
    New base =
      (⟨base.PodName, base.PodUID, base.Params.get TargetNodeParamName,
        base.Params.get GuestImageSourcePVCNamespaceParamName,
        base.Params.get GuestImageSourcePVCNameParamName, d,
        time.Duration.mul n time.Microsecond⟩, none) := by
  rw [New_eq_steps, durationStep_ok _ d hd hpd, thresholdStep_ok _ n ht hpt]

/-- The `int64` product with `time.Microsecond` is the exact product as long as the
number of microseconds is at most 9223372036854775 in absolute value. -/
theorem mul_Microsecond_exact (n : Int) (hlo : -9223372036854775 ≤ n)
    (hhi : n ≤ 9223372036854775) : time.Duration.mul n time.Microsecond = n * 1000 := by
  have hM : time.Microsecond = 1000 := by decide
  have h63 : (2 : Int) ^ 63 = 9223372036854775808 := by norm_num
  have h64 : (2 : Int) ^ 64 = 18446744073709551616 := by norm_num
  unfold time.Duration.mul wrap64
  rw [hM, h63, h64]
  show ((n * 1000 + 9223372036854775808) % 18446744073709551616 - 9223372036854775808 : Int)
    = n * 1000
  omega

/-- The configuration map of the end-to-end test gives 6 minutes and 45 microseconds. -/
theorem New_testBaseConfig :
    New testBaseConfig =
      (⟨"rt-checkup-pod", "0123-4567", "my-node", "test-ns", "my-rt-vm",
        6 * time.Minute, 45 * time.Microsecond⟩, none) := by
  decide

/-- C2, at a failing input. The threshold string `9223372036854776` converts to
n = 9223372036854776, and `New` succeeds with a threshold of -9223372036854775616
nanoseconds, which is not n microseconds (n * 1000 nanoseconds). -/
theorem New_parsed_threshold_not_microseconds :
    time.ParseDuration "6m" = (6 * time.Minute, none) ∧
      strconv.Atoi "9223372036854776" = (9223372036854776, none) ∧
      New ⟨"pod", "uid",
          [("oslatDuration", "6m"), ("oslatLatencyThresholdMicroSeconds", "9223372036854776")]⟩ =
        (⟨"pod", "uid", "", "", "", 6 * time.Minute, -9223372036854775616⟩, none) ∧
      (-9223372036854775616 : Int) ≠ 9223372036854776 * 1000 := by
  decide

/-- C3. A non-empty `oslatDuration` value that does not parse makes `New` return
`Config{}` with exactly `ErrInvalidOslatDuration`, whatever the threshold value is;
the error is not the threshold error and the duration returned is not the default. -/
theorem New_invalid_duration (base : kconfig.Config)
    (hd : base.Params.get OslatDurationParamName ≠ "")
    (hp : (time.ParseDuration (base.Params.get OslatDurationParamName)).2 ≠ none) :
    New base = (Config.zero, some .ErrInvalidOslatDuration) ∧
      (New base).2 ≠ some .ErrInvalidOslatLatencyThreshold ∧
      (New base).2 ≠ none ∧
      (New base).1.OslatDuration ≠ OslatDefaultDuration := by
  have h : New base = (Config.zero, some .ErrInvalidOslatDuration) := by
    rw [New_eq_steps, durationStep_err _ hd hp]
  rw [h]
  exact ⟨rfl, by decide, by decide, by decide⟩

theorem New_invalid_duration_witness :
    New ⟨"pod", "uid",
        [("oslatDuration", "not-a-duration"), ("oslatLatencyThresholdMicroSeconds", "abc")]⟩ =
      (Config.zero, some .ErrInvalidOslatDuration) :=
  (New_invalid_duration
    ⟨"pod", "uid",
      [("oslatDuration", "not-a-duration"), ("oslatLatencyThresholdMicroSeconds", "abc")]⟩
    (by decide) (by decide)).1

/-- C4. With the `oslatDuration` value absent, empty or a valid duration, a non-empty
`oslatLatencyThresholdMicroSeconds` value that `strconv.Atoi` rejects makes `New` return
`Config{}` with exactly `ErrInvalidOslatLatencyThreshold`; the threshold returned is not
the default. -/
theorem New_invalid_threshold (base : kconfig.Config)
    (hd : base.Params.get OslatDurationParamName = "" ∨
      (time.ParseDuration (base.Params.get OslatDurationParamName)).2 = none)
    (ht : base.Params.get OslatLatencyThresholdParamName ≠ "")
    (hp : (strconv.Atoi (base.Params.get OslatLatencyThresholdParamName)).2 ≠ none) :
    New base = (Config.zero, some .ErrInvalidOslatLatencyThreshold) ∧
      (New base).1.OslatLatencyThreshold ≠ OslatDefaultLatencyThreshold := by
  have h : New base = (Config.zero, some .ErrInvalidOslatLatencyThreshold) := by
    rw [New_eq_steps, thresholdStep_err _ ht hp]
    by_cases he : base.Params.get OslatDurationParamName = ""
    · rw [he, durationStep_empty]
    · rcases hd with hd | hd
      · exact absurd hd he
      · rcases hP : time.ParseDuration (base.Params.get OslatDurationParamName) with ⟨d, _ | e⟩
        · rw [durationStep_ok _ d he hP]
        · simp [hP] at hd
  rw [h]
  exact ⟨rfl, by decide⟩

theorem New_invalid_threshold_witness :
    New ⟨"pod", "uid", [("oslatLatencyThresholdMicroSeconds", "abc")]⟩ =
        (Config.zero, some .ErrInvalidOslatLatencyThreshold) ∧
      New ⟨"pod", "uid",
          [("oslatDuration", "6m"), ("oslatLatencyThresholdMicroSeconds", "abc")]⟩ =
        (Config.zero, some .ErrInvalidOslatLatencyThreshold) :=
  ⟨(New_invalid_threshold ⟨"pod", "uid", [("oslatLatencyThresholdMicroSeconds", "abc")]⟩
      (Or.inl (by decide)) (by decide) (by decide)).1,
    (New_invalid_threshold
      ⟨"pod", "uid", [("oslatDuration", "6m"), ("oslatLatencyThresholdMicroSeconds", "abc")]⟩
      (Or.inr (by decide)) (by decide) (by decide)).1⟩

/-- C5, at a failing input. `strconv.Atoi` accepts `9223372036854775807`, the largest
`int`, and `New` succeeds with a threshold of -1000 nanoseconds: the `int64` product
with `time.Microsecond` has wrapped around, and is not n * 1000. -/
theorem New_threshold_wraps :
    strconv.Atoi "9223372036854775807" = (9223372036854775807, none) ∧
      New ⟨"pod", "uid", [("oslatLatencyThresholdMicroSeconds", "9223372036854775807")]⟩ =
        (⟨"pod", "uid", "", "", "", 5 * time.Minute, -1000⟩, none) ∧
      (-1000 : Int) ≠ 9223372036854775807 * 1000 := by
  decide

/-- C8. Whenever `New` succeeds, `PodName` and `PodUID` are those of the base
configuration and `TargetNode`, `GuestImageSourcePVCNamespace` and
`GuestImageSourcePVCName` are the values of the keys `targetNode`,
`guestImageSourcePVCNamespace` and `guestImageSourcePVCName`, the empty string when the
key is absent: no other key, and neither the duration nor the threshold, enters them. -/
theorem New_identity_fields (base : kconfig.Config) (h : (New base).2 = none) :
    (New base).1.PodName = base.PodName ∧
      (New base).1.PodUID = base.PodUID ∧
      (New base).1.TargetNode = (base.Params.lookup "targetNode").getD "" ∧
      (New base).1.GuestImageSourcePVCNamespace =
        (base.Params.lookup "guestImageSourcePVCNamespace").getD "" ∧
      (New base).1.GuestImageSourcePVCName =
        (base.Params.lookup "guestImageSourcePVCName").getD "" := by
  rw [New_eq_steps] at h ⊢
  cases hD : durationStep (base.Params.get OslatDurationParamName) with
  | none => simp [hD] at h
  | some d =>
    cases hT : thresholdStep (base.Params.get OslatLatencyThresholdParamName) with
    | none => simp [hD, hT] at h
    | some t => exact ⟨rfl, rfl, rfl, rfl, rfl⟩

theorem New_identity_fields_witness :
    (New testBaseConfig).1.PodName = "rt-checkup-pod" ∧
      (New testBaseConfig).1.PodUID = "0123-4567" ∧
      (New testBaseConfig).1.TargetNode = "my-node" ∧
      (New testBaseConfig).1.GuestImageSourcePVCNamespace = "test-ns" ∧
      (New testBaseConfig).1.GuestImageSourcePVCName = "my-rt-vm" :=
  New_identity_fields testBaseConfig (by decide)

/-- The list standing for the Go map enters `New` through its lookups alone: base
configurations with the same pod name and pod UID whose parameter lists give the same
value for every key, in whatever order the entries come, give the same result. -/
theorem New_lookup_only (base1 base2 : kconfig.Config)
    (hName : base1.PodName = base2.PodName) (hUID : base1.PodUID = base2.PodUID)
    (hParams : ∀ k, base1.Params.get k = base2.Params.get k) :
    New base1 = New base2 := by
  rw [New_eq_steps, New_eq_steps, hName, hUID, hParams, hParams, hParams, hParams, hParams]

end config

/-! ## The cancellable client -/

namespace client

section race
variable {R Err O : Type} (remote : R) (onResult : R → O) (onDone : Err → O)

theorem run_append (st : CallState R Err O) (s1 s2 : List (Event Err)) :
    run remote onResult onDone st (s1 ++ s2) =
      run remote onResult onDone (run remote onResult onDone st s1) s2 := by
  simp [run, List.foldl_append]

theorem step_returned_stable (st : CallState R Err O) (ev : Event Err) (o : O)
    (h : st.returned = some o) : (step remote onResult onDone st ev).returned = some o := by
  cases ev with
  | send => simp only [step]; split_ifs <;> simp [h]
  | cancel e => simp only [step]; split <;> simp [h]
  | selectResult => simp only [step]; split <;> simp_all
  | selectDone => simp only [step]; split <;> simp_all

theorem run_returned_stable (sched : List (Event Err)) :
    ∀ (st : CallState R Err O) (o : O), st.returned = some o →
      (run remote onResult onDone st sched).returned = some o := by
  induction sched with
  | nil => intro st o h; exact h
  | cons ev rest ih =>
    intro st o h
    exact ih _ o (step_returned_stable remote onResult onDone st ev o h)

theorem step_expired (e : Err) (st : CallState R Err O) (ev : Event Err)
    (h1 : st.ctxErr = some e)
    (h2 : st.resultCh = none ∨ st.resultCh = some remote)
    (h3 : st.returned = none ∨ st.returned = some (onDone e) ∨
      st.returned = some (onResult remote)) :
    (step remote onResult onDone st ev).ctxErr = some e ∧
      ((step remote onResult onDone st ev).resultCh = none ∨
        (step remote onResult onDone st ev).resultCh = some remote) ∧
      ((step remote onResult onDone st ev).returned = none ∨
        (step remote onResult onDone st ev).returned = some (onDone e) ∨
        (step remote onResult onDone st ev).returned = some (onResult remote)) := by
  cases ev with
  | send => simp only [step]; split_ifs <;> simp_all
  | cancel e1 => simp only [step]; split <;> simp_all
  | selectResult =>
    simp only [step]
    split
    · rename_i hr hc
      rcases h2 with h2 | h2
      · simp [h2] at hc
      · rw [h2] at hc
        simp only [Option.some.injEq] at hc
        subst hc
        simp [h1]
    · exact ⟨h1, h2, h3⟩
  | selectDone =>
    simp only [step]
    split
    · rename_i hr hc
      rw [h1] at hc
      simp only [Option.some.injEq] at hc
      subst hc
      simp [h1, h2]
    · exact ⟨h1, h2, h3⟩

theorem run_expired (e : Err) (sched : List (Event Err)) :
    ∀ st : CallState R Err O, st.ctxErr = some e →
      (st.resultCh = none ∨ st.resultCh = some remote) →
      (st.returned = none ∨ st.returned = some (onDone e) ∨
        st.returned = some (onResult remote)) →
      (run remote onResult onDone st sched).ctxErr = some e ∧
      ((run remote onResult onDone st sched).returned = none ∨
        (run remote onResult onDone st sched).returned = some (onDone e) ∨
        (run remote onResult onDone st sched).returned = some (onResult remote)) := by
  induction sched with
  | nil => intro st h1 _ h3; exact ⟨h1, h3⟩
  | cons ev rest ih =>
    intro st h1 h2 h3
    have hs := step_expired remote onResult onDone e st ev h1 h2 h3
    exact ih _ hs.1 hs.2.1 hs.2.2

theorem run_expired_no_send (e : Err) (sched : List (Event Err)) (hs : Event.send ∉ sched) :
    ∀ st : CallState R Err O, st.ctxErr = some e → st.resultCh = none →
      (st.returned = none ∨ st.returned = some (onDone e)) →
      (run remote onResult onDone st sched).returned = none ∨
        (run remote onResult onDone st sched).returned = some (onDone e) := by
  induction sched with
  | nil => intro st _ _ h3; exact h3
  | cons ev rest ih =>
    intro st h1 h2 h3
    have hrest : Event.send ∉ rest := fun h => hs (List.mem_cons_of_mem _ h)
    have hev : ev ≠ Event.send := fun h => hs (h ▸ List.mem_cons_self _ _)
    refine ih hrest _ ?_ ?_ ?_
    · cases ev with
      | send => exact absurd rfl hev
      | cancel e1 => simp only [step]; split <;> simp_all
      | selectResult => simp only [step]; split <;> simp_all
      | selectDone => simp only [step]; split <;> simp_all
    · cases ev with
      | send => exact absurd rfl hev
      | cancel e1 => simp only [step]; split <;> simp_all
      | selectResult => simp only [step]; split <;> simp_all
      | selectDone => simp only [step]; split <;> simp_all
    · cases ev with
      | send => exact absurd rfl hev
      | cancel e1 => simp only [step]; split <;> simp_all
      | selectResult => simp only [step]; split <;> simp_all
      | selectDone =>
        simp only [step]
        split
        · rename_i hr hc
          rw [h1] at hc
          simp only [Option.some.injEq] at hc
          subst hc
          simp
        · exact h3

theorem run_expired_select_done (e : Err) (st : CallState R Err O) (h1 : st.ctxErr = some e)
    (h2 : st.returned = none) :
    (run remote onResult onDone st [Event.selectDone]).returned = some (onDone e) := by
  simp [run, step, h1, h2]

theorem run_select_result (st : CallState R Err O) (h1 : st.resultCh = some remote)
    (h2 : st.returned = none) :
    (run remote onResult onDone st [Event.selectResult]).returned = some (onResult remote) := by
  simp [run, step, h1, h2]

theorem step_live (st : CallState R Err O) (ev : Event Err) (hev : ∀ e, ev ≠ Event.cancel e)
    (h1 : st.ctxErr = none)
    (h2 : (st.sent = false ∧ st.resultCh = none ∧ st.returned = none) ∨
      (st.sent = true ∧ st.resultCh = some remote ∧ st.returned = none) ∨
      (st.sent = true ∧ st.resultCh = none ∧ st.returned = some (onResult remote))) :
    (step remote onResult onDone st ev).ctxErr = none ∧
      (((step remote onResult onDone st ev).sent = false ∧
          (step remote onResult onDone st ev).resultCh = none ∧
          (step remote onResult onDone st ev).returned = none) ∨
        ((step remote onResult onDone st ev).sent = true ∧
          (step remote onResult onDone st ev).resultCh = some remote ∧
          (step remote onResult onDone st ev).returned = none) ∨
        ((step remote onResult onDone st ev).sent = true ∧
          (step remote onResult onDone st ev).resultCh = none ∧
          (step remote onResult onDone st ev).returned = some (onResult remote))) ∧
      ((st.sent = true ∨ ev = Event.send) →
        (step remote onResult onDone st ev).sent = true) := by
  cases ev with
  | send =>
    simp only [step]
    rcases h2 with ⟨a, b, c⟩ | ⟨a, b, c⟩ | ⟨a, b, c⟩ <;> simp [a, b, c, h1]
  | cancel e1 => exact absurd rfl (hev e1)
  | selectResult =>
    simp only [step]
    rcases h2 with ⟨a, b, c⟩ | ⟨a, b, c⟩ | ⟨a, b, c⟩ <;> simp [a, b, c, h1]
  | selectDone =>
    simp only [step]
    rcases h2 with ⟨a, b, c⟩ | ⟨a, b, c⟩ | ⟨a, b, c⟩ <;> simp [a, b, c, h1]

theorem run_live (sched : List (Event Err)) (hc : ∀ e, Event.cancel e ∉ sched) :
    ∀ st : CallState R Err O, st.ctxErr = none →
      ((st.sent = false ∧ st.resultCh = none ∧ st.returned = none) ∨
        (st.sent = true ∧ st.resultCh = some remote ∧ st.returned = none) ∨
        (st.sent = true ∧ st.resultCh = none ∧ st.returned = some (onResult remote))) →
      (run remote onResult onDone st sched).ctxErr = none ∧
      (((run remote onResult onDone st sched).sent = false ∧
          (run remote onResult onDone st sched).resultCh = none ∧
          (run remote onResult onDone st sched).returned = none) ∨
        ((run remote onResult onDone st sched).sent = true ∧
          (run remote onResult onDone st sched).resultCh = some remote ∧
          (run remote onResult onDone st sched).returned = none) ∨
        ((run remote onResult onDone st sched).sent = true ∧
          (run remote onResult onDone st sched).resultCh = none ∧
          (run remote onResult onDone st sched).returned = some (onResult remote))) ∧
      ((st.sent = true ∨ Event.send ∈ sched) →
        (run remote onResult onDone st sched).sent = true) := by
  induction sched with
  | nil =>
    intro st h1 h2
    refine ⟨h1, h2, fun h => ?_⟩
    rcases h with h | h
    · exact h
    · simp at h
  | cons ev rest ih =>
    intro st h1 h2
    have hev : ∀ e, ev ≠ Event.cancel e := fun e h => hc e (h ▸ List.mem_cons_self _ _)
    have hrest : ∀ e, Event.cancel e ∉ rest := fun e h => hc e (List.mem_cons_of_mem _ h)
    have hs := step_live remote onResult onDone st ev hev h1 h2
    have hr := ih hrest _ hs.1 hs.2.1
    refine ⟨hr.1, hr.2.1, fun h => hr.2.2 ?_⟩
    rcases h with h | h
    · exact Or.inl (hs.2.2 (Or.inl h))
    · rcases List.mem_cons.mp h with h | h
      · exact Or.inl (hs.2.2 (Or.inr h.symm))
      · exact Or.inr h

/-- The race with a context that is already expired, with `ctx.Err() = e`: what is
returned is the cancellation outcome or the remote result, and it is final; it is the
cancellation outcome when nothing was sent; and while nothing is returned the `select`
can proceed with the `ctx.Done()` case. -/
theorem race_expired (e : Err) (sched post : List (Event Err)) :
    (∀ o, (run remote onResult onDone (start (some e)) sched).returned = some o →
      (o = onDone e ∨ o = onResult remote) ∧
        (run remote onResult onDone (start (some e)) (sched ++ post)).returned = some o) ∧
    (Event.send ∉ sched →
      ∀ o, (run remote onResult onDone (start (some e)) sched).returned = some o →
        o = onDone e) ∧
    ((run remote onResult onDone (start (some e)) sched).returned = none →
      (run remote onResult onDone (start (some e)) (sched ++ [Event.selectDone])).returned =
        some (onDone e)) := by
  have hinv := run_expired remote onResult onDone e sched (start (some e)) rfl (Or.inl rfl)
    (Or.inl rfl)
  refine ⟨fun o ho => ⟨?_, ?_⟩, fun hs o ho => ?_, fun hn => ?_⟩
  · rcases hinv.2 with h | h | h
    · rw [h] at ho; cases ho
    · rw [h] at ho; exact Or.inl (Option.some.inj ho).symm
    · rw [h] at ho; exact Or.inr (Option.some.inj ho).symm
  · rw [run_append]
    exact run_returned_stable remote onResult onDone post _ o ho
  · rcases run_expired_no_send remote onResult onDone e sched hs (start (some e)) rfl rfl
      (Or.inl rfl) with h | h
    · rw [h] at ho; cases ho
    · rw [h] at ho; exact (Option.some.inj ho).symm
  · rw [run_append]
    exact run_expired_select_done remote onResult onDone e _ hinv.1 hn

/-- The race before any cancellation: what is returned is the remote result, and it is
final whatever happens afterwards; and once the result is sent the `select` can
proceed with the receive from `resultCh`. -/
theorem race_live (pre post : List (Event Err)) (hc : ∀ e, Event.cancel e ∉ pre) :
    (∀ o, (run remote onResult onDone (start none) pre).returned = some o →
      o = onResult remote ∧
        (run remote onResult onDone (start none) (pre ++ post)).returned = some o) ∧
    (Event.send ∈ pre → (run remote onResult onDone (start none) pre).returned = none →
      (run remote onResult onDone (start none) (pre ++ [Event.selectResult])).returned =
        some (onResult remote)) := by
  have hinv := run_live remote onResult onDone pre hc (start none) rfl (Or.inl ⟨rfl, rfl, rfl⟩)
  refine ⟨fun o ho => ⟨?_, ?_⟩, fun hs hn => ?_⟩
  · rcases hinv.2.1 with ⟨_, _, h⟩ | ⟨_, _, h⟩ | ⟨_, _, h⟩
    · rw [h] at ho; cases ho
    · rw [h] at ho; cases ho
    · rw [h] at ho; exact (Option.some.inj ho).symm
  · rw [run_append]
    exact run_returned_stable remote onResult onDone post _ o ho
  · have hsent := hinv.2.2 (Or.inr hs)
    rw [run_append]
    rcases hinv.2.1 with ⟨a, _, _⟩ | ⟨_, b, c⟩ | ⟨_, _, c⟩
    · rw [a] at hsent; cases hsent
    · exact run_select_result remote onResult onDone _ b c
    · rw [c] at hn; cases hn

end race

/-- C6 as stated fails. With the context already expired (`ctx.Err()` is
`context canceled`) and a remote call that has answered before the `select` is
reached, both cases of the `select` are ready and the receive from `resultCh` may
proceed: each operation then returns the remote call's result, not the cancellation
error. -/
theorem expired_context_may_return_remote_result :
    (exampleClient.CreateVirtualMachineInstance (some "context canceled") "ns" (some "vmi")
        [Event.send, Event.selectResult] = some (some "vmi", none) ∧
      exampleClient.CreateVirtualMachineInstance (some "context canceled") "ns" (some "vmi")
        [Event.send, Event.selectResult] ≠ some (none, some "context canceled")) ∧
    (exampleClient.GetVirtualMachineInstance (some "context canceled") "ns" "vmi"
        [Event.send, Event.selectResult] = some (some "vmi", none) ∧
      exampleClient.GetVirtualMachineInstance (some "context canceled") "ns" "vmi"
        [Event.send, Event.selectResult] ≠ some (none, some "context canceled")) ∧
    (exampleClient.DeleteVirtualMachineInstance (some "context canceled") "ns" "vmi"
        [Event.send, Event.selectResult] = some none ∧
      exampleClient.DeleteVirtualMachineInstance (some "context canceled") "ns" "vmi"
        [Event.send, Event.selectResult] ≠ some (some "context canceled")) := by
  decide

/-- C6, amended. With the context already expired before the call starts, for each of
the three operations: whatever is returned is either the cancellation error `ctx.Err()`
(with a nil instance for create and get) or the remote call's result, and stays so;
it is the cancellation error whenever the remote call's result has not been sent by
then; and as long as the operation has not returned, its `select` can proceed with the
`ctx.Done()` case and return the cancellation error, without waiting for the remote
call. -/
theorem expired_context_returns {VMI Err : Type} (c : Client (kubecli.KubevirtClient VMI Err))
    (e : Err) (namespace_ name : String) (vmi : Option VMI) (sched post : List (Event Err)) :
    ((∀ o, c.CreateVirtualMachineInstance (some e) namespace_ vmi sched = some o →
        (o = (none, some e) ∨ o = c.KubevirtClient.Create namespace_ vmi) ∧
          c.CreateVirtualMachineInstance (some e) namespace_ vmi (sched ++ post) = some o) ∧
      (Event.send ∉ sched →
        ∀ o, c.CreateVirtualMachineInstance (some e) namespace_ vmi sched = some o →
          o = (none, some e)) ∧
      (c.CreateVirtualMachineInstance (some e) namespace_ vmi sched = none →
        c.CreateVirtualMachineInstance (some e) namespace_ vmi (sched ++ [Event.selectDone]) =
          some (none, some e))) ∧
    ((∀ o, c.GetVirtualMachineInstance (some e) namespace_ name sched = some o →
        (o = (none, some e) ∨ o = c.KubevirtClient.Get namespace_ name) ∧
          c.GetVirtualMachineInstance (some e) namespace_ name (sched ++ post) = some o) ∧
      (Event.send ∉ sched →
        ∀ o, c.GetVirtualMachineInstance (some e) namespace_ name sched = some o →
          o = (none, some e)) ∧
      (c.GetVirtualMachineInstance (some e) namespace_ name sched = none →
        c.GetVirtualMachineInstance (some e) namespace_ name (sched ++ [Event.selectDone]) =
          some (none, some e))) ∧
    ((∀ o, c.DeleteVirtualMachineInstance (some e) namespace_ name sched = some o →
        (o = some e ∨ o = c.KubevirtClient.Delete namespace_ name) ∧
          c.DeleteVirtualMachineInstance (some e) namespace_ name (sched ++ post) = some o) ∧
      (Event.send ∉ sched →
        ∀ o, c.DeleteVirtualMachineInstance (some e) namespace_ name sched = some o →
          o = some e) ∧
      (c.DeleteVirtualMachineInstance (some e) namespace_ name sched = none →
        c.DeleteVirtualMachineInstance (some e) namespace_ name (sched ++ [Event.selectDone]) =
          some (some e))) :=
  ⟨race_expired _ _ _ e sched post, race_expired _ _ _ e sched post,
    race_expired _ _ _ e sched post⟩

theorem expired_context_returns_witness :
    exampleClient.CreateVirtualMachineInstance (some "context canceled") "ns" (some "vmi")
        ([] ++ [Event.selectDone]) = some (none, some "context canceled") ∧
      exampleClient.GetVirtualMachineInstance (some "context canceled") "ns" "vmi"
        ([] ++ [Event.selectDone]) = some (none, some "context canceled") ∧
      exampleClient.DeleteVirtualMachineInstance (some "context canceled") "ns" "vmi"
        ([] ++ [Event.selectDone]) = some (some "context canceled") :=
  ⟨(expired_context_returns exampleClient "context canceled" "ns" "vmi" (some "vmi") []
      []).1.2.2 rfl,
    (expired_context_returns exampleClient "context canceled" "ns" "vmi" (some "vmi") []
      []).2.1.2.2 rfl,
    (expired_context_returns exampleClient "context canceled" "ns" "vmi" (some "vmi") []
      []).2.2.2.2 rfl⟩

/-- C7 as stated fails. The remote call answers and its result is sent; only then does
the cancellation signal fire; the `select` is reached after both, finds both cases
ready, and may proceed with `ctx.Done()`: each operation then returns the cancellation
error although the remote call completed before the signal fired. -/
theorem completed_call_may_return_cancellation :
    (exampleClient.CreateVirtualMachineInstance none "ns" (some "vmi")
        [Event.send, Event.cancel "context deadline exceeded", Event.selectDone] =
        some (none, some "context deadline exceeded") ∧
      exampleClient.CreateVirtualMachineInstance none "ns" (some "vmi")
        [Event.send, Event.cancel "context deadline exceeded", Event.selectDone] ≠
        some (exampleClient.KubevirtClient.Create "ns" (some "vmi"))) ∧
    (exampleClient.GetVirtualMachineInstance none "ns" "vmi"
        [Event.send, Event.cancel "context deadline exceeded", Event.selectDone] =
        some (none, some "context deadline exceeded") ∧
      exampleClient.GetVirtualMachineInstance none "ns" "vmi"
        [Event.send, Event.cancel "context deadline exceeded", Event.selectDone] ≠
        some (exampleClient.KubevirtClient.Get "ns" "vmi")) ∧
    (exampleClient.DeleteVirtualMachineInstance none "ns" "vmi"
        [Event.send, Event.cancel "context deadline exceeded", Event.selectDone] =
        some (some "context deadline exceeded") ∧
      exampleClient.DeleteVirtualMachineInstance none "ns" "vmi"
        [Event.send, Event.cancel "context deadline exceeded", Event.selectDone] ≠
        some (exampleClient.KubevirtClient.Delete "ns" "vmi")) := by
  decide

/-- C7, amended. For each of the three operations, started with a context that is not
done: if the operation returns before the cancellation signal fires, it returns exactly
the remote call's result, the same (instance, error) pair for create and get and the
same error for delete, and a signal that fires afterwards does not change it; and once
the remote call has completed and no signal has fired, the `select` can proceed with
the receive from `resultCh` and return that result. -/
theorem completed_call_returns_result {VMI Err : Type}
    (c : Client (kubecli.KubevirtClient VMI Err)) (namespace_ name : String) (vmi : Option VMI)
    (pre post : List (Event Err)) (hc : ∀ e, Event.cancel e ∉ pre) :
    ((∀ o, c.CreateVirtualMachineInstance none namespace_ vmi pre = some o →
        o = c.KubevirtClient.Create namespace_ vmi ∧
          c.CreateVirtualMachineInstance none namespace_ vmi (pre ++ post) = some o) ∧
      (Event.send ∈ pre → c.CreateVirtualMachineInstance none namespace_ vmi pre = none →
        c.CreateVirtualMachineInstance none namespace_ vmi (pre ++ [Event.selectResult]) =
          some (c.KubevirtClient.Create namespace_ vmi))) ∧
    ((∀ o, c.GetVirtualMachineInstance none namespace_ name pre = some o →
        o = c.KubevirtClient.Get namespace_ name ∧
          c.GetVirtualMachineInstance none namespace_ name (pre ++ post) = some o) ∧
      (Event.send ∈ pre → c.GetVirtualMachineInstance none namespace_ name pre = none →
        c.GetVirtualMachineInstance none namespace_ name (pre ++ [Event.selectResult]) =
          some (c.KubevirtClient.Get namespace_ name))) ∧
    ((∀ o, c.DeleteVirtualMachineInstance none namespace_ name pre = some o →
        o = c.KubevirtClient.Delete namespace_ name ∧
          c.DeleteVirtualMachineInstance none namespace_ name (pre ++ post) = some o) ∧
      (Event.send ∈ pre → c.DeleteVirtualMachineInstance none namespace_ name pre = none →
        c.DeleteVirtualMachineInstance none namespace_ name (pre ++ [Event.selectResult]) =
          some (c.KubevirtClient.Delete namespace_ name))) :=
  ⟨race_live _ _ _ pre post hc, race_live _ _ _ pre post hc, race_live _ _ _ pre post hc⟩

theorem completed_call_returns_result_witness :
    exampleClient.CreateVirtualMachineInstance none "ns" (some "vmi")
        ([Event.send, Event.selectResult] ++ [Event.cancel "context canceled", Event.selectDone])
        = some (some "vmi", none) ∧
      exampleClient.GetVirtualMachineInstance none "ns" "missing"
        ([Event.send] ++ [Event.selectResult]) = some (none, some "not found") ∧
      exampleClient.DeleteVirtualMachineInstance none "ns" "vmi"
        ([Event.send] ++ [Event.selectResult]) = some none :=
  ⟨((completed_call_returns_result exampleClient "ns" "vmi" (some "vmi")
      [Event.send, Event.selectResult] [Event.cancel "context canceled", Event.selectDone]
      (fun e h => by simp at h)).1.1 (some "vmi", none) rfl).2,
    (completed_call_returns_result exampleClient "ns" "missing" (some "vmi")
      [Event.send] [] (fun e h => by simp at h)).2.1.2 (by decide) rfl,
    (completed_call_returns_result exampleClient "ns" "vmi" (some "vmi")
      [Event.send] [] (fun e h => by simp at h)).2.2.2 (by decide) rfl⟩

end client

/-! ## The run orchestrator -/

namespace pkg

/-- The function `client.New` fails exactly when one of its two collaborators does, with
that collaborator's error and a nil client; the second is not called when the first
fails. -/
theorem client_New_spec {W RestConfig KC Err : Type}
    (inClusterConfig : W → (Option RestConfig × Option Err) × W)
    (getKubevirtClientFromRESTConfig : Option RestConfig → W → (KC × Option Err) × W) (w : W) :
    (∀ e, (inClusterConfig w).1.2 = some e →
      client.New inClusterConfig getKubevirtClientFromRESTConfig w =
        ((none, some e), (inClusterConfig w).2)) ∧
    ((inClusterConfig w).1.2 = none →
      client.New inClusterConfig getKubevirtClientFromRESTConfig w =
        ((match (getKubevirtClientFromRESTConfig (inClusterConfig w).1.1
                (inClusterConfig w).2).1.2 with
          | some _ => none
          | none => some ⟨(getKubevirtClientFromRESTConfig (inClusterConfig w).1.1
                (inClusterConfig w).2).1.1⟩,
          (getKubevirtClientFromRESTConfig (inClusterConfig w).1.1 (inClusterConfig w).2).1.2),
         (getKubevirtClientFromRESTConfig (inClusterConfig w).1.1 (inClusterConfig w).2).2)) := by
  unfold client.New
  rcases h1 : inClusterConfig w with ⟨⟨cfg, _ | e1⟩, w1⟩
  · refine ⟨fun e he => by simp at he, fun _ => ?_⟩
    rcases h2 : getKubevirtClientFromRESTConfig cfg w1 with ⟨⟨kc, _ | e2⟩, w2⟩ <;> simp [h2]
  · refine ⟨fun e he => ?_, fun he => by simp at he⟩
    simp only [Option.some.injEq] at he
    subst he
    rfl

/-- C9. `Run` returns a non-nil error exactly when `client.New` fails or, `client.New`
having succeeded, `kconfig.Read` fails. When `client.New` fails `Run` returns its error
and leaves the environment as `client.New` left it, whatever the reader is: the reader
is not called. When `client.New` succeeds `Run` returns the reader's error, nil when
the reader succeeds. -/
theorem Run_error_iff {W RestConfig KC Err BaseConfig : Type}
    (inClusterConfig : W → (Option RestConfig × Option Err) × W)
    (getKubevirtClientFromRESTConfig : Option RestConfig → W → (KC × Option Err) × W)
    (read : Option (client.Client KC) → Go.StringMap → W → (BaseConfig × Option Err) × W)
    (rawEnv : Go.StringMap) (w : W) :
    ((Run inClusterConfig getKubevirtClientFromRESTConfig read rawEnv w).1 ≠ none ↔
      (client.New inClusterConfig getKubevirtClientFromRESTConfig w).1.2 ≠ none ∨
        ((client.New inClusterConfig getKubevirtClientFromRESTConfig w).1.2 = none ∧
          (read (client.New inClusterConfig getKubevirtClientFromRESTConfig w).1.1 rawEnv
            (client.New inClusterConfig getKubevirtClientFromRESTConfig w).2).1.2 ≠ none)) ∧
    (∀ e, (client.New inClusterConfig getKubevirtClientFromRESTConfig w).1.2 = some e →
      ∀ read2 : Option (client.Client KC) → Go.StringMap → W → (BaseConfig × Option Err) × W,
        Run inClusterConfig getKubevirtClientFromRESTConfig read2 rawEnv w =
          (some e, (client.New inClusterConfig getKubevirtClientFromRESTConfig w).2)) ∧
    ((client.New inClusterConfig getKubevirtClientFromRESTConfig w).1.2 = none →
      Run inClusterConfig getKubevirtClientFromRESTConfig read rawEnv w =
        ((read (client.New inClusterConfig getKubevirtClientFromRESTConfig w).1.1 rawEnv
            (client.New inClusterConfig getKubevirtClientFromRESTConfig w).2).1.2,
          (read (client.New inClusterConfig getKubevirtClientFromRESTConfig w).1.1 rawEnv
            (client.New inClusterConfig getKubevirtClientFromRESTConfig w).2).2)) := by
  unfold Run
  rcases h1 : client.New inClusterConfig getKubevirtClientFromRESTConfig w with ⟨⟨c, _ | e1⟩, w1⟩
  · rcases h2 : read c rawEnv w1 with ⟨⟨b, _ | e2⟩, w2⟩
    · refine ⟨?_, ?_, ?_⟩
      · dsimp only; rw [h2]; simp
      · intro e he; cases he
      · intro _; dsimp only; rw [h2]
    · refine ⟨?_, ?_, ?_⟩
      · dsimp only; rw [h2]; simp
      · intro e he; cases he
      · intro _; dsimp only; rw [h2]
  · refine ⟨?_, ?_, ?_⟩
    · simp
    · intro e he read2
      simp only [Option.some.injEq] at he
      subst he
      rfl
    · intro he; cases he

theorem Run_error_iff_witness :
    Run (exampleInClusterConfig false) (exampleGetKubevirtClient true) (exampleRead true) [] [] =
        (some "not in cluster", ["rest.InClusterConfig"]) ∧
      Run (exampleInClusterConfig true) (exampleGetKubevirtClient true) (exampleRead false) [] [] =
        (some "config map not found",
          ["rest.InClusterConfig", "kubecli.GetKubevirtClientFromRESTConfig", "kconfig.Read"]) ∧
      Run (exampleInClusterConfig true) (exampleGetKubevirtClient true) (exampleRead true) [] [] =
        (none,
          ["rest.InClusterConfig", "kubecli.GetKubevirtClientFromRESTConfig", "kconfig.Read"]) :=
  ⟨(Run_error_iff (exampleInClusterConfig false) (exampleGetKubevirtClient true)
      (exampleRead true) [] []).2.1 "not in cluster" rfl (exampleRead true),
    (Run_error_iff (exampleInClusterConfig true) (exampleGetKubevirtClient true)
      (exampleRead false) [] []).2.2 rfl,
    (Run_error_iff (exampleInClusterConfig true) (exampleGetKubevirtClient true)
      (exampleRead true) [] []).2.2 rfl⟩

end pkg
